import Mathlib

/-!
Shallow embedding of the `cached` key-value cache (Rust) for verification.

Conventions:
* Rust `String` values are modelled as their UTF-8 byte sequences, `List Nat`
  (each element a byte value `< 256`); `abbrev Str := List Nat`.
* Fallible Rust functions returning `Result<T, Error>` become `Except Error T`.
* Machine integers are `Nat`; wrapping `usize` subtraction is made explicit
  with a `% 2^64` (release-mode Rust semantics).
* `now()` (milliseconds since the Unix epoch) is passed as an explicit `Nat`
  argument wherever the source calls `SystemTime::now()`.
-/

namespace Cached

/-- A Rust string / byte buffer, as its sequence of byte values. -/
abbrev Str := List Nat

instance {ε α : Type} [DecidableEq ε] [DecidableEq α] : DecidableEq (Except ε α) :=
  fun a b =>
    match a, b with
    | .error e₁, .error e₂ =>
      if h : e₁ = e₂ then .isTrue (congrArg Except.error h)
      else .isFalse (fun hh => h (Except.error.inj hh))
    | .error _, .ok _ => .isFalse (fun hh => Except.noConfusion hh)
    | .ok _, .error _ => .isFalse (fun hh => Except.noConfusion hh)
    | .ok a₁, .ok a₂ =>
      if h : a₁ = a₂ then .isTrue (congrArg Except.ok h)
      else .isFalse (fun hh => h (Except.ok.inj hh))

/-- Big-endian byte encoding of `n` into exactly `w` bytes
(as done by `write_u8` / `write_u32` / `write_u128` in `connection.rs`). -/
def beBytes : Nat → Nat → List Nat
  | 0, _ => []
  | w + 1, n => beBytes w (n / 256) ++ [n % 256]

/-- Big-endian interpretation of a byte list
(as done by `nom`'s `be_u32` / `be_u128` in `parsing.rs`). -/
def beRead (l : List Nat) : Nat :=
  l.foldl (fun acc b => acc * 256 + b) 0

theorem beBytes_length (w n : Nat) : (beBytes w n).length = w := by
  induction w generalizing n with
  | zero => rfl
  | succ w ih => simp [beBytes, ih]

theorem beRead_cons_aux (acc : Nat) (l : List Nat) :
    l.foldl (fun acc b => acc * 256 + b) acc =
      acc * 256 ^ l.length + l.foldl (fun acc b => acc * 256 + b) 0 := by
  induction l generalizing acc with
  | nil => simp
  | cons b t ih =>
    simp only [List.foldl_cons, List.length_cons, Nat.zero_mul, Nat.zero_add]
    rw [ih (acc * 256 + b), ih b]
    ring

theorem beRead_beBytes (w n : Nat) : beRead (beBytes w n) = n % 256 ^ w := by
  induction w generalizing n with
  | zero => simp [beBytes, beRead]; omega
  | succ w ih =>
    simp only [beBytes, beRead, List.foldl_append, List.foldl_cons, List.foldl_nil]
    rw [beRead_cons_aux]
    simp only [beRead] at ih
    rw [ih, beBytes_length]
    have h256 : (256 : Nat) ^ (w + 1) = 256 ^ w * 256 := by ring
    rw [h256, Nat.mul_comm (256 ^ w) 256, Nat.mod_mul]
    ring

theorem beRead_beBytes_of_lt {w n : Nat} (h : n < 256 ^ w) :
    beRead (beBytes w n) = n := by
  rw [beRead_beBytes, Nat.mod_eq_of_lt h]

/-! ### UTF-8 validation

`String::from_utf8` in Rust accepts exactly the well-formed UTF-8 byte
sequences (no overlong encodings, no surrogates, max scalar 0x10FFFF).
`utf8Valid` is that validity check. -/

/-- One-byte-at-a-time UTF-8 validation automaton: `need` is the number of
continuation bytes still expected, and `[lo, hi]` the admissible range of
the next byte while `need > 0` (UTF-8 restricts the first continuation
byte's range to exclude overlong forms, surrogates and values above
`0x10FFFF`, exactly as Rust's `str` validation does). -/
def utf8ValidAux : List Nat → Nat → Nat → Nat → Bool
  | [], need, _, _ => need = 0
  | b :: rest, 0, _, _ =>
    if b ≤ 0x7F then utf8ValidAux rest 0 0 0
    else if b < 0xC2 then false
    else if b ≤ 0xDF then utf8ValidAux rest 1 0x80 0xBF
    else if b = 0xE0 then utf8ValidAux rest 2 0xA0 0xBF
    else if b = 0xED then utf8ValidAux rest 2 0x80 0x9F
    else if b ≤ 0xEF then utf8ValidAux rest 2 0x80 0xBF
    else if b = 0xF0 then utf8ValidAux rest 3 0x90 0xBF
    else if b ≤ 0xF3 then utf8ValidAux rest 3 0x80 0xBF
    else if b = 0xF4 then utf8ValidAux rest 3 0x80 0x8F
    else false
  | b :: rest, need + 1, lo, hi =>
    if lo ≤ b ∧ b ≤ hi then utf8ValidAux rest need 0x80 0xBF else false

/-- Rust's UTF-8 validity check on a byte sequence
(what `String::from_utf8` accepts). -/
def utf8Valid (l : List Nat) : Bool := utf8ValidAux l 0 0 0

/-! ### Primitive protocol types (`primitives.rs`) -/

/-- `primitives.rs`: `OpCode` — `Set=1, Get=2, Delete=3, Flush=4`. -/
inductive OpCode
  | set
  | get
  | delete
  | flush
  deriving DecidableEq, Repr

/-- The wire byte of an `OpCode` (`op_code as u8`). -/
def OpCode.toByte : OpCode → Nat
  | .set => 1
  | .get => 2
  | .delete => 3
  | .flush => 4

/-- `primitives.rs`: `StatusCode` — `Ok=0, KeyNotFound=1, KeyExists=2, InternalError=3`. -/
inductive StatusCode
  | ok
  | keyNotFound
  | keyExists
  | internalError
  deriving DecidableEq, Repr

/-- The wire byte of a `StatusCode` (`status as u8`). -/
def StatusCode.toByte : StatusCode → Nat
  | .ok => 0
  | .keyNotFound => 1
  | .keyExists => 2
  | .internalError => 3

/-! ### Error taxonomy (`error.rs`) -/

/-- `error.rs`: the `Parse` error kind. `stringUtf8` models `Parse::String`
(a `FromUtf8Error` surfaced by the codec). -/
inductive ParseError
  | keyMissing
  | valueMissing
  | keyAndValueMissing
  | unexpectedKey
  | unexpectedValue
  | stringUtf8
  deriving DecidableEq, Repr

/-- `error.rs`: the `FrameError` kind (as used by `domain.rs` and `parsing.rs`). -/
inductive FrameError
  | incomplete
  | invalidOpCode
  | invalidStatusCode
  | keyTooLong
  | valueTooLong
  deriving DecidableEq, Repr

/-- `error.rs`: the `Error` variants relevant to the codec and domain layer. -/
inductive Error
  | parse (e : ParseError)
  | frame (e : FrameError)
  deriving DecidableEq, Repr

/-- `primitives.rs`: `impl TryFrom<u8> for OpCode`. -/
def OpCode.tryFrom (b : Nat) : Except Error OpCode :=
  match b with
  | 1 => .ok .set
  | 2 => .ok .get
  | 3 => .ok .delete
  | 4 => .ok .flush
  | _ => .error (.frame .invalidOpCode)

/-- `primitives.rs`: `impl TryFrom<u8> for StatusCode`. -/
def StatusCode.tryFrom (b : Nat) : Except Error StatusCode :=
  match b with
  | 0 => .ok .ok
  | 1 => .ok .keyNotFound
  | 2 => .ok .keyExists
  | 3 => .ok .internalError
  | _ => .error (.frame .invalidStatusCode)

/-! ### Domain types (`domain.rs`) -/

/-- `domain.rs`: `MAX_VALUE_LENGTH = 1024 * 1024`. -/
def MAX_VALUE_LENGTH : Nat := 1024 * 1024

namespace Key

/-- `domain.rs`: `Key::parse` — rejects keys of byte length `> u8::MAX`
with `KeyTooLong`; everything else (including the empty string) is accepted. -/
def parse (k : Str) : Except Error Str :=
  if k.length > 255 then .error (.frame .keyTooLong) else .ok k

end Key

namespace Value

/-- `domain.rs`: `Value::parse` — rejects values of byte length
`> MAX_VALUE_LENGTH` with `ValueTooLong`. -/
def parse (v : Str) : Except Error Str :=
  if v.length > MAX_VALUE_LENGTH then .error (.frame .valueTooLong) else .ok v

end Value

namespace TTL

/-- `domain.rs`: `TTLSinceUnixEpochInMillis::parse` — `None` and `Some 0`
both become the sentinel `0`; any other value is kept. The wrapped `u128`
is modelled as a plain `Nat`. -/
def parse (ttl : Option Nat) : Nat :=
  match ttl with
  | none => 0
  | some t => if t = 0 then 0 else t

/-- `domain.rs`: `TTLSinceUnixEpochInMillis::into_ttl` — `0` means "no TTL". -/
def intoTtl (t : Nat) : Option Nat :=
  match t with
  | 0 => none
  | t => some t

end TTL

/-! ### Frames (`frame.rs`) -/

/-- `frame.rs`: `HEADER_SIZE_BYTES = 23`. -/
def HEADER_SIZE_BYTES : Nat := 23

/-- `frame.rs`: `RequestHeader` (the byte-1 padding is not stored). -/
structure RequestHeader where
  op_code : OpCode
  key_length : Nat
  ttl_since_unix_epoch_in_millis : Nat
  total_frame_length : Nat
  deriving DecidableEq, Repr

/-- `frame.rs`: `RequestFrame`. -/
structure RequestFrame where
  header : RequestHeader
  key : Option Str
  value : Option Str
  deriving DecidableEq, Repr

/-- `frame.rs`: `RequestFrame::new` — derives `key_length` and
`total_frame_length` from the key/value lengths (the Rust function
returns `Result` but never fails). -/
def RequestFrame.new (op_code : OpCode) (ttl : Nat)
    (key value : Option Str) : RequestFrame :=
  let key_length := (key.map List.length).getD 0
  let value_length := (value.map List.length).getD 0
  { header := { op_code := op_code
                key_length := key_length
                ttl_since_unix_epoch_in_millis := ttl
                total_frame_length := HEADER_SIZE_BYTES + key_length + value_length }
    key := key
    value := value }

/-- `frame.rs`: `ResponseHeader`. -/
structure ResponseHeader where
  op_code : OpCode
  status : StatusCode
  key_length : Nat
  ttl_since_unix_epoch_in_millis : Nat
  total_frame_length : Nat
  deriving DecidableEq, Repr

/-- `frame.rs`: `ResponseFrame`. -/
structure ResponseFrame where
  header : ResponseHeader
  key : Option Str
  value : Option Str
  deriving DecidableEq, Repr

/-- `frame.rs`: `ResponseFrame::new`. -/
def ResponseFrame.new (op_code : OpCode) (status : StatusCode) (ttl : Nat)
    (key value : Option Str) : ResponseFrame :=
  let key_length := (key.map List.length).getD 0
  let value_length := (value.map List.length).getD 0
  { header := { op_code := op_code
                status := status
                key_length := key_length
                ttl_since_unix_epoch_in_millis := ttl
                total_frame_length := HEADER_SIZE_BYTES + key_length + value_length }
    key := key
    value := value }

/-! ### Requests (`request.rs`) -/

/-- `request.rs`: the `Request` enum. Keys/values are UTF-8 byte strings,
the TTL an optional `u128` millisecond timestamp. -/
inductive Request
  | get (key : Str)
  | set (key : Str) (value : Str) (ttl_since_unix_epoch_in_millis : Option Nat)
  | delete (key : Str)
  | flush
  deriving DecidableEq, Repr

/-- `frame/header.rs`: `validate_key_length` — `None` maps to length `0`,
too-long keys are rejected with `KeyTooLong`. -/
def validate_key_length (key : Option Str) : Except Error Nat :=
  match key with
  | none => .ok 0
  | some k => if k.length > 255 then .error (.frame .keyTooLong) else .ok k.length

/-- `frame/header.rs`: `validate_value_length`. -/
def validate_value_length (value : Option Str) : Except Error Nat :=
  match value with
  | none => .ok 0
  | some v =>
    if v.length > MAX_VALUE_LENGTH then .error (.frame .valueTooLong) else .ok v.length

/-- `frame/header.rs`: `RequestHeader::parse` — validates the key/value
lengths, computes `total_frame_length = 23 + key_length + value_length`,
and normalizes the TTL through its `0` sentinel. -/
def RequestHeader.parse (op_code : OpCode) (key value : Option Str)
    (ttl : Option Nat) : Except Error RequestHeader := do
  let key_length ← validate_key_length key
  let value_length ← validate_value_length value
  .ok { op_code := op_code
        key_length := key_length
        ttl_since_unix_epoch_in_millis := TTL.parse ttl
        total_frame_length := HEADER_SIZE_BYTES + key_length + value_length }

/-- `request.rs`: `impl TryFrom<Request> for RequestFrame` — builds the
header from the request's fields and moves key/value into the frame. -/
def Request.toFrame : Request → Except Error RequestFrame
  | .get key => do
    let header ← RequestHeader.parse .get (some key) none none
    .ok { header := header, key := some key, value := none }
  | .set key value ttl => do
    let header ← RequestHeader.parse .set (some key) (some value) ttl
    .ok { header := header, key := some key, value := some value }
  | .delete key => do
    let header ← RequestHeader.parse .delete (some key) none none
    .ok { header := header, key := some key, value := none }
  | .flush => do
    let header ← RequestHeader.parse .flush none none none
    .ok { header := header, key := none, value := none }

/-- `connection.rs`: the byte sequence written by `Connection::write_request`
for a frame: op-code byte, padding `0`, key-length byte, 16-byte big-endian
TTL, 4-byte big-endian total length, key bytes, value bytes. -/
def writeRequestBytes (f : RequestFrame) : Str :=
  f.header.op_code.toByte :: 0 :: f.header.key_length ::
    (beBytes 16 f.header.ttl_since_unix_epoch_in_millis ++
     beBytes 4 f.header.total_frame_length ++
     f.key.getD [] ++ f.value.getD [])

/-- `connection.rs`: the byte sequence written by `Connection::write_response`:
op-code byte, status byte, key-length byte, TTL, total length, key, value. -/
def writeResponseBytes (f : ResponseFrame) : Str :=
  f.header.op_code.toByte :: f.header.status.toByte :: f.header.key_length ::
    (beBytes 16 f.header.ttl_since_unix_epoch_in_millis ++
     beBytes 4 f.header.total_frame_length ++
     f.key.getD [] ++ f.value.getD [])

/-- `request.rs`: `impl TryFrom<RequestFrame> for Request` — the semantic
validation of a decoded frame (`KeyMissing` / `ValueMissing` /
`UnexpectedKey` / `UnexpectedValue`). -/
def Request.tryFrom (frame : RequestFrame) : Except Error Request :=
  match frame.header.op_code with
  | .set =>
    match frame.key, frame.value with
    | some k, some v =>
      .ok (.set k v (TTL.intoTtl frame.header.ttl_since_unix_epoch_in_millis))
    | none, _ => .error (.parse .keyMissing)
    | some _, none => .error (.parse .valueMissing)
  | .get =>
    if frame.value.isSome then .error (.parse .unexpectedValue)
    else
      match frame.key with
      | some k => .ok (.get k)
      | none => .error (.parse .keyMissing)
  | .delete =>
    if frame.value.isSome then .error (.parse .unexpectedValue)
    else
      match frame.key with
      | some k => .ok (.delete k)
      | none => .error (.parse .keyMissing)
  | .flush =>
    if frame.key.isSome then .error (.parse .unexpectedKey)
    else if frame.value.isSome then .error (.parse .unexpectedValue)
    else .ok .flush

/-! ### Wire parsing (`parsing.rs`)

The `nom` streaming combinators distinguish `Incomplete` (not enough input)
from hard failures; `NomErr` models that distinction. -/

/-- The error side of a `nom` streaming parser. -/
inductive NomErr
  | incomplete
  | failure
  deriving DecidableEq, Repr

/-- `nom`'s streaming `u8`: one byte, or `Incomplete`. Returns
`(byte, remainder)`. -/
def readU8 : Str → Except NomErr (Nat × Str)
  | [] => .error .incomplete
  | b :: rest => .ok (b, rest)

/-- `nom`'s streaming `take(n)`: the next `n` bytes, or `Incomplete`.
Returns `(taken, remainder)`. -/
def takeN (n : Nat) (l : Str) : Except NomErr (Str × Str) :=
  if l.length < n then .error .incomplete else .ok (l.take n, l.drop n)

/-- `parsing.rs`: the `RequestPrimitive` struct. -/
structure RequestPrimitive where
  op_code : OpCode
  ttl_since_unix_epoch_in_millis : Nat
  key_bytes : Str
  value_bytes : Str
  deriving DecidableEq, Repr

/-- Wrapping `usize` subtraction (release-mode Rust; `usize` is 64-bit). -/
def usizeSub (a b : Nat) : Nat :=
  (a + (2 ^ 64 - b % 2 ^ 64)) % 2 ^ 64

/-- `parsing.rs`: `parse_request_primitives` — op-code byte (via
`map_res(u8, OpCode::try_from)`, whose conversion failure is a hard `nom`
error), padding byte, key-length byte, big-endian `u128` TTL, big-endian
`u32` total length, then `key_length` key bytes and
`total_frame_length - 23 - key_length` value bytes. -/
def parse_request_primitives (input : Str) : Except NomErr RequestPrimitive := do
  let (b0, r0) ← readU8 input
  let op_code ← match OpCode.tryFrom b0 with
    | .ok op => Except.ok op
    | .error _ => Except.error NomErr.failure
  let (_, r1) ← readU8 r0
  let (key_length, r2) ← readU8 r1
  let (ttlBytes, r3) ← takeN 16 r2
  let (totBytes, r4) ← takeN 4 r3
  let ttl_since_unix_epoch_in_millis := beRead ttlBytes
  let total_frame_length := beRead totBytes
  let (key_bytes, r5) ← takeN key_length r4
  let value_length := usizeSub (usizeSub total_frame_length HEADER_SIZE_BYTES) key_length
  let (value_bytes, _) ← takeN value_length r5
  .ok { op_code := op_code
        ttl_since_unix_epoch_in_millis := ttl_since_unix_epoch_in_millis
        key_bytes := key_bytes
        value_bytes := value_bytes }

/-- `parsing.rs`: the `ResponsePrimitive` struct. -/
structure ResponsePrimitive where
  op_code : OpCode
  status : StatusCode
  ttl_since_unix_epoch_in_millis : Nat
  key_bytes : Str
  value_bytes : Str
  deriving DecidableEq, Repr

/-- `parsing.rs`: `parse_response_primitives` — like the request parser but
with a status byte (via `map_res(u8, StatusCode::try_from)`) in place of
the padding byte. -/
def parse_response_primitives (input : Str) : Except NomErr ResponsePrimitive := do
  let (b0, r0) ← readU8 input
  let op_code ← match OpCode.tryFrom b0 with
    | .ok op => Except.ok op
    | .error _ => Except.error NomErr.failure
  let (b1, r1) ← readU8 r0
  let status ← match StatusCode.tryFrom b1 with
    | .ok s => Except.ok s
    | .error _ => Except.error NomErr.failure
  let (key_length, r2) ← readU8 r1
  let (ttlBytes, r3) ← takeN 16 r2
  let (totBytes, r4) ← takeN 4 r3
  let ttl_since_unix_epoch_in_millis := beRead ttlBytes
  let total_frame_length := beRead totBytes
  let (key_bytes, r5) ← takeN key_length r4
  let value_length := usizeSub (usizeSub total_frame_length HEADER_SIZE_BYTES) key_length
  let (value_bytes, _) ← takeN value_length r5
  .ok { op_code := op_code
        status := status
        ttl_since_unix_epoch_in_millis := ttl_since_unix_epoch_in_millis
        key_bytes := key_bytes
        value_bytes := value_bytes }

/-- Rust's `String::from_utf8`: accepts exactly valid UTF-8, returning the
bytes unchanged (a `String` is its UTF-8 bytes in this model). -/
def fromUtf8 (b : Str) : Except Error Str :=
  if utf8Valid b then .ok b else .error (.parse .stringUtf8)

/-- `parsing.rs`: `parse_request_frame` — runs the primitive parser
(`Incomplete` stays `FrameError::Incomplete`, any other `nom` error becomes
`Parse::String`), maps zero-length key/value byte slices to `None`,
validates non-empty ones as UTF-8 (`String::from_utf8`) and through
`Key::parse` / `Value::parse`, and rebuilds the frame with
`RequestFrame::new`. -/
def parse_request_frame (input : Str) : Except Error RequestFrame := do
  let prim ← match parse_request_primitives input with
    | .error .incomplete => Except.error (Error.frame .incomplete)
    | .error .failure => Except.error (Error.parse .stringUtf8)
    | .ok p => Except.ok p
  let key ← match prim.key_bytes.length with
    | 0 => Except.ok (none : Option Str)
    | _ => do
      let k ← fromUtf8 prim.key_bytes
      let k ← Key.parse k
      Except.ok (some k)
  let value ← match prim.value_bytes.length with
    | 0 => Except.ok (none : Option Str)
    | _ => do
      let v ← fromUtf8 prim.value_bytes
      let v ← Value.parse v
      Except.ok (some v)
  let ttl := TTL.parse (some prim.ttl_since_unix_epoch_in_millis)
  .ok (RequestFrame.new prim.op_code ttl key value)

/-- `parsing.rs`: `parse_response_frame`. -/
def parse_response_frame (input : Str) : Except Error ResponseFrame := do
  let prim ← match parse_response_primitives input with
    | .error .incomplete => Except.error (Error.frame .incomplete)
    | .error .failure => Except.error (Error.parse .stringUtf8)
    | .ok p => Except.ok p
  let key ← match prim.key_bytes.length with
    | 0 => Except.ok (none : Option Str)
    | _ => do
      let k ← fromUtf8 prim.key_bytes
      let k ← Key.parse k
      Except.ok (some k)
  let value ← match prim.value_bytes.length with
    | 0 => Except.ok (none : Option Str)
    | _ => do
      let v ← fromUtf8 prim.value_bytes
      let v ← Value.parse v
      Except.ok (some v)
  let ttl := TTL.parse (some prim.ttl_since_unix_epoch_in_millis)
  .ok (ResponseFrame.new prim.op_code prim.status ttl key value)

/-! ### Responses (`response.rs`) -/

/-- `response.rs`: `ResponseBodyGet`. -/
structure ResponseBodyGet where
  key : Str
  value : Str
  ttl_since_unix_epoch_in_millis : Option Nat
  deriving DecidableEq, Repr

/-- `response.rs`: `ResponseBody`. -/
inductive ResponseBody
  | get (body : Option ResponseBodyGet)
  | set
  | delete
  | flush
  deriving DecidableEq, Repr

/-- `response.rs`: `Response`. -/
structure Response where
  status : StatusCode
  body : ResponseBody
  deriving DecidableEq, Repr

/-- `response.rs`: `impl TryFrom<Response> for ResponseFrame` — projects the
body into `(op_code, key, value, ttl)` and builds the frame. -/
def Response.toFrame (resp : Response) : Except Error ResponseFrame :=
  let (op_code, key, value, ttl) :=
    match resp.body with
    | .get (some b) =>
      (OpCode.get, some b.key, some b.value, b.ttl_since_unix_epoch_in_millis)
    | .get none => (OpCode.get, none, none, none)
    | .set => (OpCode.set, none, none, none)
    | .delete => (OpCode.delete, none, none, none)
    | .flush => (OpCode.flush, none, none, none)
  .ok (ResponseFrame.new op_code resp.status (TTL.parse ttl) key value)

/-- `response.rs`: `ensure_key_and_value_are_none` — key first, then value. -/
def ensure_key_and_value_are_none (key value : Option Str) : Except Error Unit :=
  if key.isSome then .error (.parse .unexpectedKey)
  else if value.isSome then .error (.parse .unexpectedValue)
  else .ok ()

/-- `response.rs`: `impl TryFrom<ResponseFrame> for Response`. For a `Get`
frame, a body needs both key and value; a missing part is an error only when
the status is `Ok`, otherwise the body is `None`. Other op-codes must carry
neither key nor value. -/
def Response.tryFrom (frame : ResponseFrame) : Except Error Response := do
  let body ← match frame.header.op_code with
    | .get =>
      let body_result : Except Error (Option ResponseBodyGet) :=
        match frame.key, frame.value with
        | some key, some value =>
          .ok (some { key := key
                      value := value
                      ttl_since_unix_epoch_in_millis :=
                        TTL.intoTtl frame.header.ttl_since_unix_epoch_in_millis })
        | some _, none => .error (.parse .valueMissing)
        | none, some _ => .error (.parse .keyMissing)
        | none, none => .error (.parse .keyAndValueMissing)
      match body_result with
      | .ok b => Except.ok (ResponseBody.get b)
      | .error e =>
        if frame.header.status = StatusCode.ok then Except.error e
        else Except.ok (ResponseBody.get none)
    | .set => do
      let _ ← ensure_key_and_value_are_none frame.key frame.value
      Except.ok ResponseBody.set
    | .delete => do
      let _ ← ensure_key_and_value_are_none frame.key frame.value
      Except.ok ResponseBody.delete
    | .flush => do
      let _ ← ensure_key_and_value_are_none frame.key frame.value
      Except.ok ResponseBody.flush
  .ok { status := frame.header.status, body := body }

/-! ### End-to-end codec (`connection.rs` read/write paths) -/

/-- Encode a request exactly as `Connection::write_request`:
convert to a frame, then serialize. -/
def encodeRequest (r : Request) : Except Error Str := do
  let frame ← r.toFrame
  .ok (writeRequestBytes frame)

/-- Decode a request exactly as `read_request`:
parse the frame, then convert. -/
def decodeRequest (input : Str) : Except Error Request := do
  let frame ← parse_request_frame input
  Request.tryFrom frame

/-- Encode a response exactly as `Connection::write_response`. -/
def encodeResponse (resp : Response) : Except Error Str := do
  let frame ← resp.toFrame
  .ok (writeResponseBytes frame)

/-- Decode a response exactly as `read_response`. -/
def decodeResponse (input : Str) : Except Error Response := do
  let frame ← parse_response_frame input
  Response.tryFrom frame

/-! ### Storage actor (`db.rs`)

`HashMap<String, DbValue>` is modelled as an association list with unique
keys (insert replaces), `HashSet<String>` as a duplicate-free list. The
actor's `now()` is an explicit millisecond timestamp argument. -/

/-- `db.rs`: `DbValue`. -/
structure DbValue where
  value : Str
  ttl_since_unix_epoch_in_millis : Option Nat
  deriving DecidableEq, Repr

/-- `db.rs`: the private `MainDB` state: the main map and the TTL key set. -/
structure MainDB where
  db : List (Str × DbValue)
  keys_with_ttl : List Str
  deriving DecidableEq, Repr

/-- `HashMap::get`. -/
def mapLookup (m : List (Str × DbValue)) (k : Str) : Option DbValue :=
  (m.find? (fun p => p.1 = k)).map (·.2)

/-- `HashMap::insert` (replaces any existing binding for the key). -/
def mapInsert (m : List (Str × DbValue)) (k : Str) (v : DbValue) :
    List (Str × DbValue) :=
  (k, v) :: m.filter (fun p => ¬ p.1 = k)

/-- `HashMap::remove`. -/
def mapRemove (m : List (Str × DbValue)) (k : Str) : List (Str × DbValue) :=
  m.filter (fun p => ¬ p.1 = k)

/-- `HashSet::insert`. -/
def setInsert (s : List Str) (k : Str) : List Str :=
  if k ∈ s then s else k :: s

/-- `HashSet::remove`. -/
def setRemove (s : List Str) (k : Str) : List Str :=
  s.filter (fun x => ¬ x = k)

/-- `db.rs`: `MainDB::new` — both containers empty. -/
def MainDB.new : MainDB := { db := [], keys_with_ttl := [] }

/-- `db.rs`: `MainDB::get` at time `now` — lazy expiry: an entry whose TTL
`t` satisfies `t < now` is removed from both containers and reported as a
miss; otherwise the entry (if any) is returned unchanged. Returns
`(response, new state)`. -/
def MainDB.get (now : Nat) (s : MainDB) (key : Str) :
    Option DbValue × MainDB :=
  let maybe_value := mapLookup s.db key
  let maybe_ttl := maybe_value.bind (·.ttl_since_unix_epoch_in_millis)
  let ttl_has_expired := ((maybe_ttl.map (fun ttl => decide (ttl < now))).getD false)
  if ttl_has_expired then
    (none, { db := mapRemove s.db key, keys_with_ttl := setRemove s.keys_with_ttl key })
  else
    (maybe_value, s)

/-- `db.rs`: `MainDB::insert` at time `now` — a TTL `≤ now` stores nothing;
a future TTL also records the key in `keys_with_ttl`; the map insert always
overwrites. -/
def MainDB.insert (now : Nat) (s : MainDB) (key : Str) (value : Str)
    (ttl_since_unix_epoch_in_millis : Option Nat) : MainDB :=
  match ttl_since_unix_epoch_in_millis with
  | some ttl =>
    if ttl ≤ now then
      s
    else
      { db := mapInsert s.db key
          { value := value, ttl_since_unix_epoch_in_millis := some ttl }
        keys_with_ttl := setInsert s.keys_with_ttl key }
  | none =>
    { db := mapInsert s.db key
        { value := value, ttl_since_unix_epoch_in_millis := none }
      keys_with_ttl := s.keys_with_ttl }

/-- `db.rs`: `MainDB::remove` — removes the key from both containers. -/
def MainDB.remove (s : MainDB) (key : Str) : MainDB :=
  { db := mapRemove s.db key, keys_with_ttl := setRemove s.keys_with_ttl key }

/-- `db.rs`: `MainDB::clear` — empties both containers. -/
def MainDB.clear (_ : MainDB) : MainDB :=
  { db := [], keys_with_ttl := [] }

/-- `db.rs`: `MainDB::contains_key` as performed by the `ContainsKey` arm of
`handle_request`: `self.db.contains_key(&key)` — no TTL check. -/
def MainDB.containsKey (s : MainDB) (key : Str) : Bool :=
  (mapLookup s.db key).isSome

/-- `db.rs`: the `DbRequest` message enum of the storage actor. -/
inductive DbRequest
  | get (key : Str)
  | insert (key : Str) (value : Str) (ttl : Option Nat)
  | remove (key : Str)
  | containsKey (key : Str)
  | clear
  deriving DecidableEq, Repr

/-- `db.rs`: the `DbResponse` enum. -/
inductive DbResponse
  | get (value : DbValue)
  | containsKey (b : Bool)
  deriving DecidableEq, Repr

/-- `db.rs`: `MainDB::handle_request` — one actor step at time `now`. -/
def MainDB.handleRequest (now : Nat) (s : MainDB) (request : DbRequest) :
    Option DbResponse × MainDB :=
  match request with
  | .get key =>
    let (v, s') := MainDB.get now s key
    (v.map DbResponse.get, s')
  | .insert key value ttl => (none, MainDB.insert now s key value ttl)
  | .containsKey key => (some (.containsKey (s.containsKey key)), s)
  | .remove key => (none, s.remove key)
  | .clear => (none, s.clear)

/-- The state after a sequence of actor steps from the empty state; each
step carries the `now` at which the actor processed it. -/
def runSteps (steps : List (Nat × DbRequest)) : MainDB :=
  steps.foldl (fun s step => (MainDB.handleRequest step.1 s step.2).2) MainDB.new

/-! ### Server request handler (`server.rs`)

`Handler::handle_request` dispatches one decoded request to the storage
actor and produces the response. The actor messages of one handler call are
processed at the same explicit time `now`. -/

/-- `server.rs`: `Handler::handle_request` — GET with lazy expiry;
SET gated on `ContainsKey` (insert-if-absent, `KeyExists` when present);
DELETE gated on `ContainsKey` (`KeyNotFound` when absent); FLUSH clears.
Returns `(response, new actor state)`. -/
def Handler.handleRequest (now : Nat) (s : MainDB) (req : Request) :
    Response × MainDB :=
  match req with
  | .get key =>
    let (v, s') := MainDB.get now s key
    match v with
    | some val =>
      ({ status := .ok
         body := .get (some { key := key
                              value := val.value
                              ttl_since_unix_epoch_in_millis :=
                                val.ttl_since_unix_epoch_in_millis }) }, s')
    | none => ({ status := .keyNotFound, body := .get none }, s')
  | .set key value ttl =>
    if s.containsKey key then
      ({ status := .keyExists, body := .set }, s)
    else
      ({ status := .ok, body := .set }, MainDB.insert now s key value ttl)
  | .delete key =>
    if ¬ s.containsKey key then
      ({ status := .keyNotFound, body := .delete }, s)
    else
      ({ status := .ok, body := .delete }, s.remove key)
  | .flush => ({ status := .ok, body := .flush }, s.clear)

/-! ## Codec lemmas -/

theorem OpCode.tryFrom_toByte (op : OpCode) : OpCode.tryFrom op.toByte = .ok op := by
  cases op <;> rfl

theorem StatusCode.tryFrom_statusByte (s : StatusCode) :
    StatusCode.tryFrom s.toByte = .ok s := by
  cases s <;> rfl

theorem TTL.parse_some (t : Nat) : TTL.parse (some t) = t := by
  by_cases h : t = 0 <;> simp [TTL.parse, h]

theorem takeN_exact {l₁ : Str} (l₂ : Str) {n : Nat} (h : l₁.length = n) :
    takeN n (l₁ ++ l₂) = .ok (l₁, l₂) := by
  unfold takeN
  rw [if_neg (by simp only [List.length_append]; omega), List.take_left' h,
    List.drop_left' h]

theorem takeN_self (l : Str) : takeN l.length l = .ok (l, []) := by
  unfold takeN
  rw [if_neg (by omega)]
  simp

theorem takeN_short {l : Str} {n : Nat} (h : l.length < n) :
    takeN n l = .error .incomplete := by
  unfold takeN
  rw [if_pos h]

/-- The raw wire bytes of a structurally valid request frame with the given
op-code, TTL, key bytes and value bytes (header as written by
`Connection::write_request`). -/
def encodeRawRequest (op : OpCode) (ttl : Nat) (kb vb : Str) : Str :=
  op.toByte :: 0 :: kb.length ::
    (beBytes 16 ttl ++
      (beBytes 4 (HEADER_SIZE_BYTES + kb.length + vb.length) ++ (kb ++ vb)))

/-- The raw wire bytes of a structurally valid response frame. -/
def encodeRawResponse (op : OpCode) (status : StatusCode) (ttl : Nat)
    (kb vb : Str) : Str :=
  op.toByte :: status.toByte :: kb.length ::
    (beBytes 16 ttl ++
      (beBytes 4 (HEADER_SIZE_BYTES + kb.length + vb.length) ++ (kb ++ vb)))

theorem encodeRawRequest_length (op : OpCode) (ttl : Nat) (kb vb : Str) :
    (encodeRawRequest op ttl kb vb).length =
      HEADER_SIZE_BYTES + kb.length + vb.length := by
  simp [encodeRawRequest, beBytes_length, HEADER_SIZE_BYTES]
  omega

theorem encodeRawResponse_length (op : OpCode) (status : StatusCode)
    (ttl : Nat) (kb vb : Str) :
    (encodeRawResponse op status ttl kb vb).length =
      HEADER_SIZE_BYTES + kb.length + vb.length := by
  simp [encodeRawResponse, beBytes_length, HEADER_SIZE_BYTES]
  omega

theorem usizeSub_value_length {k v : Nat} (hv : v ≤ MAX_VALUE_LENGTH) :
    usizeSub (usizeSub (HEADER_SIZE_BYTES + k + v) HEADER_SIZE_BYTES) k = v := by
  unfold usizeSub HEADER_SIZE_BYTES
  unfold MAX_VALUE_LENGTH at hv
  omega

theorem pow256_16_eq : (256 : Nat) ^ 16 = 2 ^ 128 := by norm_num

theorem pow256_4_eq : (256 : Nat) ^ 4 = 2 ^ 32 := by norm_num

theorem writeRequestBytes_new (op : OpCode) (ttl : Nat) (key value : Option Str) :
    writeRequestBytes (RequestFrame.new op ttl key value) =
      encodeRawRequest op ttl (key.getD []) (value.getD []) := by
  cases key <;> cases value <;>
    simp [writeRequestBytes, RequestFrame.new, encodeRawRequest]

theorem writeResponseBytes_new (op : OpCode) (status : StatusCode) (ttl : Nat)
    (key value : Option Str) :
    writeResponseBytes (ResponseFrame.new op status ttl key value) =
      encodeRawResponse op status ttl (key.getD []) (value.getD []) := by
  cases key <;> cases value <;>
    simp [writeResponseBytes, ResponseFrame.new, encodeRawResponse]

theorem parse_request_primitives_enc (op : OpCode) (ttl : Nat) (kb vb : Str)
    (httl : ttl < 2 ^ 128) (hk : kb.length ≤ 255)
    (hv : vb.length ≤ MAX_VALUE_LENGTH) :
    parse_request_primitives (encodeRawRequest op ttl kb vb) =
      .ok { op_code := op
            ttl_since_unix_epoch_in_millis := ttl
            key_bytes := kb
            value_bytes := vb } := by
  have htot : HEADER_SIZE_BYTES + kb.length + vb.length < 2 ^ 32 := by
    unfold HEADER_SIZE_BYTES
    unfold MAX_VALUE_LENGTH at hv
    omega
  have httl' : ttl < 256 ^ 16 := by rw [pow256_16_eq]; exact httl
  have htot' : HEADER_SIZE_BYTES + kb.length + vb.length < 256 ^ 4 := by
    rw [pow256_4_eq]; exact htot
  unfold parse_request_primitives encodeRawRequest
  simp only [readU8, OpCode.tryFrom_toByte, Bind.bind, Except.bind,
    takeN_exact _ (beBytes_length 16 ttl),
    takeN_exact _ (beBytes_length 4 _),
    takeN_exact vb (rfl : kb.length = kb.length),
    beRead_beBytes_of_lt httl', beRead_beBytes_of_lt htot',
    usizeSub_value_length hv, takeN_self]

theorem take_cons3 (a b c : Nat) (l : Str) (n : Nat) :
    List.take (n + 3) (a :: b :: c :: l) = a :: b :: c :: List.take n l := rfl

theorem takeN_take_short {l : Str} {m n : Nat} (hmn : m < n)
    (hml : m ≤ l.length) : takeN n (l.take m) = .error .incomplete :=
  takeN_short (by simp only [List.length_take]; omega)

theorem parse_request_primitives_truncated (op : OpCode) (ttl : Nat) (kb vb : Str)
    (hk : kb.length ≤ 255) (hv : vb.length ≤ MAX_VALUE_LENGTH)
    (m : Nat) (hm : m < HEADER_SIZE_BYTES + kb.length + vb.length) :
    parse_request_primitives ((encodeRawRequest op ttl kb vb).take m) =
      .error .incomplete := by
  have htot : HEADER_SIZE_BYTES + kb.length + vb.length < 2 ^ 32 := by
    unfold HEADER_SIZE_BYTES
    unfold MAX_VALUE_LENGTH at hv
    omega
  have htot' : HEADER_SIZE_BYTES + kb.length + vb.length < 256 ^ 4 := by
    rw [pow256_4_eq]; exact htot
  unfold HEADER_SIZE_BYTES at hm
  match m, hm with
  | 0, _ =>
    simp [parse_request_primitives, readU8, Bind.bind, Except.bind, encodeRawRequest]
  | 1, _ =>
    simp [parse_request_primitives, readU8, Bind.bind, Except.bind, encodeRawRequest,
      OpCode.tryFrom_toByte]
  | 2, _ =>
    simp [parse_request_primitives, readU8, Bind.bind, Except.bind, encodeRawRequest,
      OpCode.tryFrom_toByte]
  | n + 3, hm =>
    unfold encodeRawRequest
    rw [take_cons3]
    have hn : n < 20 + kb.length + vb.length := by omega
    by_cases h16 : n < 16
    · have hrest : n ≤ (beBytes 16 ttl ++
          (beBytes 4 (HEADER_SIZE_BYTES + kb.length + vb.length) ++ (kb ++ vb))).length := by
        simp only [List.length_append, beBytes_length]
        omega
      simp only [parse_request_primitives, readU8, Bind.bind, Except.bind,
        OpCode.tryFrom_toByte, takeN_take_short h16 hrest]
    · obtain ⟨n₂, rfl⟩ : ∃ n₂, n = 16 + n₂ := ⟨n - 16, by omega⟩
      rw [show (16 + n₂) = (beBytes 16 ttl).length + n₂ by rw [beBytes_length],
        List.take_append]
      by_cases h4 : n₂ < 4
      · have hrest : n₂ ≤ (beBytes 4 (HEADER_SIZE_BYTES + kb.length + vb.length) ++
            (kb ++ vb)).length := by
          simp only [List.length_append, beBytes_length]
          omega
        simp only [parse_request_primitives, readU8, Bind.bind, Except.bind,
          OpCode.tryFrom_toByte, takeN_exact _ (beBytes_length 16 ttl),
          takeN_take_short h4 hrest]
      · obtain ⟨n₃, rfl⟩ : ∃ n₃, n₂ = 4 + n₃ := ⟨n₂ - 4, by omega⟩
        rw [show (4 + n₃) =
            (beBytes 4 (HEADER_SIZE_BYTES + kb.length + vb.length)).length + n₃ by
          rw [beBytes_length], List.take_append]
        by_cases hkl : n₃ < kb.length
        · have hrest : n₃ ≤ (kb ++ vb).length := by
            simp only [List.length_append]
            omega
          simp only [parse_request_primitives, readU8, Bind.bind, Except.bind,
            OpCode.tryFrom_toByte, takeN_exact _ (beBytes_length 16 ttl),
            takeN_exact _ (beBytes_length 4 _), takeN_take_short hkl hrest]
        · obtain ⟨n₄, rfl⟩ : ∃ n₄, n₃ = kb.length + n₄ := ⟨n₃ - kb.length, by omega⟩
          rw [List.take_append]
          have hvl : n₄ < vb.length := by omega
          simp only [parse_request_primitives, readU8, Bind.bind, Except.bind,
            OpCode.tryFrom_toByte, takeN_exact _ (beBytes_length 16 ttl),
            takeN_exact _ (beBytes_length 4 _),
            takeN_exact _ (rfl : kb.length = kb.length),
            beRead_beBytes_of_lt htot', usizeSub_value_length hv,
            takeN_take_short hvl (le_of_lt hvl)]

/-- The decoder's mapping of a byte-slice to an optional string: a
zero-length slice becomes `none`, anything else is kept. -/
def strOpt (s : Str) : Option Str :=
  if s = [] then none else some s

theorem TTL.intoTtl_parse (ttl : Option Nat) (h : ttl ≠ some 0) :
    TTL.intoTtl (TTL.parse ttl) = ttl := by
  match ttl with
  | none => rfl
  | some 0 => exact absurd rfl h
  | some (t + 1) => simp [TTL.parse, TTL.intoTtl]

theorem parse_request_frame_enc (op : OpCode) (ttl : Nat) (kb vb : Str)
    (httl : ttl < 2 ^ 128) (hk : kb.length ≤ 255)
    (hv : vb.length ≤ MAX_VALUE_LENGTH)
    (hku : utf8Valid kb = true) (hvu : utf8Valid vb = true) :
    parse_request_frame (encodeRawRequest op ttl kb vb) =
      .ok (RequestFrame.new op ttl (strOpt kb) (strOpt vb)) := by
  unfold parse_request_frame
  rw [parse_request_primitives_enc op ttl kb vb httl hk hv]
  cases kb with
  | nil =>
    cases vb with
    | nil => simp [Bind.bind, Except.bind, TTL.parse_some, strOpt]
    | cons b vb' =>
      simp only [Bind.bind, Except.bind, List.length_nil, List.length_cons,
        fromUtf8, hvu, if_true, Value.parse, strOpt]
      rw [if_neg (by simpa using hv)]
      simp [TTL.parse_some]
  | cons a kb' =>
    cases vb with
    | nil =>
      simp only [Bind.bind, Except.bind, List.length_nil, List.length_cons,
        fromUtf8, hku, if_true, Key.parse, strOpt]
      rw [if_neg (by simpa using hk)]
      simp [TTL.parse_some]
    | cons b vb' =>
      simp only [Bind.bind, Except.bind, List.length_cons, fromUtf8, hku, hvu,
        if_true, Key.parse, Value.parse, strOpt]
      rw [if_neg (by simpa using hk), if_neg (by simpa using hv)]
      simp [TTL.parse_some]

theorem parse_response_primitives_enc (op : OpCode) (status : StatusCode)
    (ttl : Nat) (kb vb : Str)
    (httl : ttl < 2 ^ 128) (hk : kb.length ≤ 255)
    (hv : vb.length ≤ MAX_VALUE_LENGTH) :
    parse_response_primitives (encodeRawResponse op status ttl kb vb) =
      .ok { op_code := op
            status := status
            ttl_since_unix_epoch_in_millis := ttl
            key_bytes := kb
            value_bytes := vb } := by
  have htot : HEADER_SIZE_BYTES + kb.length + vb.length < 2 ^ 32 := by
    unfold HEADER_SIZE_BYTES
    unfold MAX_VALUE_LENGTH at hv
    omega
  have httl' : ttl < 256 ^ 16 := by rw [pow256_16_eq]; exact httl
  have htot' : HEADER_SIZE_BYTES + kb.length + vb.length < 256 ^ 4 := by
    rw [pow256_4_eq]; exact htot
  unfold parse_response_primitives encodeRawResponse
  simp only [readU8, OpCode.tryFrom_toByte, StatusCode.tryFrom_statusByte,
    Bind.bind, Except.bind,
    takeN_exact _ (beBytes_length 16 ttl),
    takeN_exact _ (beBytes_length 4 _),
    takeN_exact vb (rfl : kb.length = kb.length),
    beRead_beBytes_of_lt httl', beRead_beBytes_of_lt htot',
    usizeSub_value_length hv, takeN_self]

theorem parse_response_frame_enc (op : OpCode) (status : StatusCode)
    (ttl : Nat) (kb vb : Str)
    (httl : ttl < 2 ^ 128) (hk : kb.length ≤ 255)
    (hv : vb.length ≤ MAX_VALUE_LENGTH)
    (hku : utf8Valid kb = true) (hvu : utf8Valid vb = true) :
    parse_response_frame (encodeRawResponse op status ttl kb vb) =
      .ok (ResponseFrame.new op status ttl (strOpt kb) (strOpt vb)) := by
  unfold parse_response_frame
  rw [parse_response_primitives_enc op status ttl kb vb httl hk hv]
  cases kb with
  | nil =>
    cases vb with
    | nil => simp [Bind.bind, Except.bind, TTL.parse_some, strOpt]
    | cons b vb' =>
      simp only [Bind.bind, Except.bind, List.length_nil, List.length_cons,
        fromUtf8, hvu, if_true, Value.parse, strOpt]
      rw [if_neg (by simpa using hv)]
      simp [TTL.parse_some]
  | cons a kb' =>
    cases vb with
    | nil =>
      simp only [Bind.bind, Except.bind, List.length_nil, List.length_cons,
        fromUtf8, hku, if_true, Key.parse, strOpt]
      rw [if_neg (by simpa using hk)]
      simp [TTL.parse_some]
    | cons b vb' =>
      simp only [Bind.bind, Except.bind, List.length_cons, fromUtf8, hku, hvu,
        if_true, Key.parse, Value.parse, strOpt]
      rw [if_neg (by simpa using hk), if_neg (by simpa using hv)]
      simp [TTL.parse_some]

/-! ## Well-formedness predicates for round-tripping -/

/-- A key/value string that the wire format can represent faithfully:
non-empty (the codec maps zero length to "absent"), within the length
bound, and valid UTF-8 (the decoder re-validates it). -/
def WfStr (s : Str) (maxLen : Nat) : Prop :=
  s ≠ [] ∧ s.length ≤ maxLen ∧ utf8Valid s = true

instance (s : Str) (maxLen : Nat) : Decidable (WfStr s maxLen) :=
  inferInstanceAs (Decidable (_ ∧ _ ∧ _))

/-- Requests the wire format can round-trip: non-empty keys/values within
bounds, and a TTL that is neither the sentinel `Some 0` nor out of `u128`
range. -/
def Request.Wf : Request → Prop
  | .get key => WfStr key 255
  | .set key value ttl =>
    WfStr key 255 ∧ WfStr value MAX_VALUE_LENGTH ∧ ttl ≠ some 0 ∧
      ttl.getD 0 < 2 ^ 128
  | .delete key => WfStr key 255
  | .flush => True

instance (r : Request) : Decidable r.Wf :=
  match r with
  | .get key => inferInstanceAs (Decidable (WfStr key 255))
  | .set _ _ _ => inferInstanceAs (Decidable (_ ∧ _ ∧ _ ∧ _))
  | .delete key => inferInstanceAs (Decidable (WfStr key 255))
  | .flush => inferInstanceAs (Decidable True)

/-- Responses the wire format can round-trip: a present GET body has a
well-formed key and value and a TTL that is neither `Some 0` nor out of
range; an absent GET body requires a non-`Ok` status (with status `Ok` the
decoder rejects the empty body). -/
def Response.Wf : Response → Prop
  | { status := _, body := .get (some b) } =>
    WfStr b.key 255 ∧ WfStr b.value MAX_VALUE_LENGTH ∧
      b.ttl_since_unix_epoch_in_millis ≠ some 0 ∧
      b.ttl_since_unix_epoch_in_millis.getD 0 < 2 ^ 128
  | { status := status, body := .get none } => status ≠ .ok
  | _ => True

instance (resp : Response) : Decidable resp.Wf :=
  match resp with
  | { status := _, body := .get (some _) } =>
    inferInstanceAs (Decidable (_ ∧ _ ∧ _ ∧ _))
  | { status := _, body := .get none } => inferInstanceAs (Decidable (_ ≠ _))
  | { status := _, body := .set } => inferInstanceAs (Decidable True)
  | { status := _, body := .delete } => inferInstanceAs (Decidable True)
  | { status := _, body := .flush } => inferInstanceAs (Decidable True)

theorem strOpt_of_ne_nil {s : Str} (h : s ≠ []) : strOpt s = some s := by
  unfold strOpt
  rw [if_neg h]

theorem utf8Valid_nil : utf8Valid [] = true := rfl

theorem bind_ok {α β : Type} {ε : Type} (a : α) (f : α → Except ε β) :
    Except.bind (Except.ok a) f = f a := rfl

theorem bindM_ok {α β : Type} {ε : Type} (a : α) (f : α → Except ε β) :
    (Bind.bind (Except.ok a) f : Except ε β) = f a := rfl

theorem TTL.parse_lt (ttl : Option Nat) (h : ttl.getD 0 < 2 ^ 128) :
    TTL.parse ttl < 2 ^ 128 := by
  cases ttl with
  | none => norm_num [TTL.parse]
  | some t =>
    rw [TTL.parse_some]
    simpa using h

theorem Request.toFrame_get (k : Str) (hlen : k.length ≤ 255) :
    Request.toFrame (.get k) = .ok (RequestFrame.new .get 0 (some k) none) := by
  simp only [Request.toFrame, RequestHeader.parse, validate_key_length,
    validate_value_length, Bind.bind, Except.bind]
  rw [if_neg (by omega)]
  rfl

theorem Request.toFrame_delete (k : Str) (hlen : k.length ≤ 255) :
    Request.toFrame (.delete k) = .ok (RequestFrame.new .delete 0 (some k) none) := by
  simp only [Request.toFrame, RequestHeader.parse, validate_key_length,
    validate_value_length, Bind.bind, Except.bind]
  rw [if_neg (by omega)]
  rfl

theorem Request.toFrame_set (k v : Str) (ttl : Option Nat)
    (hk : k.length ≤ 255) (hv : v.length ≤ MAX_VALUE_LENGTH) :
    Request.toFrame (.set k v ttl) =
      .ok (RequestFrame.new .set (TTL.parse ttl) (some k) (some v)) := by
  simp only [Request.toFrame, RequestHeader.parse, validate_key_length,
    validate_value_length, Bind.bind, Except.bind]
  rw [if_neg (by omega), if_neg (by omega)]
  rfl

theorem Request.toFrame_flush :
    Request.toFrame .flush = .ok (RequestFrame.new .flush 0 none none) := rfl

theorem encodeRequest_get (k : Str) (hlen : k.length ≤ 255) :
    encodeRequest (.get k) = .ok (encodeRawRequest .get 0 k []) := by
  unfold encodeRequest
  rw [Request.toFrame_get k hlen]
  simp only [Bind.bind, Except.bind, writeRequestBytes_new, Option.getD]

theorem encodeRequest_delete (k : Str) (hlen : k.length ≤ 255) :
    encodeRequest (.delete k) = .ok (encodeRawRequest .delete 0 k []) := by
  unfold encodeRequest
  rw [Request.toFrame_delete k hlen]
  simp only [Bind.bind, Except.bind, writeRequestBytes_new, Option.getD]

theorem encodeRequest_set (k v : Str) (ttl : Option Nat)
    (hk : k.length ≤ 255) (hv : v.length ≤ MAX_VALUE_LENGTH) :
    encodeRequest (.set k v ttl) =
      .ok (encodeRawRequest .set (TTL.parse ttl) k v) := by
  unfold encodeRequest
  rw [Request.toFrame_set k v ttl hk hv]
  simp only [Bind.bind, Except.bind, writeRequestBytes_new, Option.getD]

theorem encodeRequest_flush :
    encodeRequest .flush = .ok (encodeRawRequest .flush 0 [] []) := by
  unfold encodeRequest
  rw [Request.toFrame_flush]
  simp only [Bind.bind, Except.bind, writeRequestBytes_new, Option.getD]

theorem request_roundtrip (r : Request) (h : r.Wf) :
    Except.bind (encodeRequest r) decodeRequest = .ok r := by
  cases r with
  | get k =>
    obtain ⟨hne, hlen, hutf⟩ := h
    rw [encodeRequest_get k hlen, bind_ok]
    unfold decodeRequest
    rw [parse_request_frame_enc .get 0 k [] (by norm_num) hlen
      (by norm_num [MAX_VALUE_LENGTH]) hutf utf8Valid_nil]
    rw [strOpt_of_ne_nil hne]
    simp [Bind.bind, Except.bind, Request.tryFrom, RequestFrame.new, strOpt]
  | delete k =>
    obtain ⟨hne, hlen, hutf⟩ := h
    rw [encodeRequest_delete k hlen, bind_ok]
    unfold decodeRequest
    rw [parse_request_frame_enc .delete 0 k [] (by norm_num) hlen
      (by norm_num [MAX_VALUE_LENGTH]) hutf utf8Valid_nil]
    rw [strOpt_of_ne_nil hne]
    simp [Bind.bind, Except.bind, Request.tryFrom, RequestFrame.new, strOpt]
  | set k v ttl =>
    obtain ⟨⟨hkne, hklen, hkutf⟩, ⟨hvne, hvlen, hvutf⟩, httl0, httl⟩ := h
    rw [encodeRequest_set k v ttl hklen hvlen, bind_ok]
    unfold decodeRequest
    rw [parse_request_frame_enc .set (TTL.parse ttl) k v
      (TTL.parse_lt ttl httl) hklen hvlen hkutf hvutf]
    rw [strOpt_of_ne_nil hkne, strOpt_of_ne_nil hvne]
    simp [Bind.bind, Except.bind, Request.tryFrom, RequestFrame.new,
      TTL.intoTtl_parse ttl httl0]
  | flush =>
    rw [encodeRequest_flush, bind_ok]
    unfold decodeRequest
    rw [parse_request_frame_enc .flush 0 [] [] (by norm_num) (by norm_num)
      (by norm_num [MAX_VALUE_LENGTH]) utf8Valid_nil utf8Valid_nil]
    simp [Bind.bind, Except.bind, Request.tryFrom, RequestFrame.new, strOpt]

theorem responseToFrame_get_some (status : StatusCode) (b : ResponseBodyGet) :
    Response.toFrame { status := status, body := .get (some b) } =
      .ok (ResponseFrame.new .get status
        (TTL.parse b.ttl_since_unix_epoch_in_millis) (some b.key) (some b.value)) := rfl

theorem responseToFrame_get_none (status : StatusCode) :
    Response.toFrame { status := status, body := .get none } =
      .ok (ResponseFrame.new .get status 0 none none) := rfl

theorem responseToFrame_set (status : StatusCode) :
    Response.toFrame { status := status, body := .set } =
      .ok (ResponseFrame.new .set status 0 none none) := rfl

theorem responseToFrame_delete (status : StatusCode) :
    Response.toFrame { status := status, body := .delete } =
      .ok (ResponseFrame.new .delete status 0 none none) := rfl

theorem responseToFrame_flush (status : StatusCode) :
    Response.toFrame { status := status, body := .flush } =
      .ok (ResponseFrame.new .flush status 0 none none) := rfl

theorem response_roundtrip (resp : Response) (h : resp.Wf) :
    Except.bind (encodeResponse resp) decodeResponse = .ok resp := by
  rcases resp with ⟨status, body⟩
  rcases body with b | _ | _ | _
  · rcases b with _ | b
    · unfold encodeResponse
      rw [responseToFrame_get_none, bindM_ok, bind_ok, writeResponseBytes_new]
      simp only [Option.getD_none]
      unfold decodeResponse
      rw [parse_response_frame_enc .get status 0 [] [] (by norm_num)
        (by norm_num) (by norm_num [MAX_VALUE_LENGTH]) utf8Valid_nil utf8Valid_nil]
      have h' : status ≠ .ok := h
      simp [Bind.bind, Except.bind, Response.tryFrom, ResponseFrame.new, strOpt, h']
    · obtain ⟨⟨hkne, hklen, hkutf⟩, ⟨hvne, hvlen, hvutf⟩, httl0, httl⟩ := h
      rcases b with ⟨key, value, ttl⟩
      unfold encodeResponse
      rw [responseToFrame_get_some, bindM_ok, bind_ok, writeResponseBytes_new]
      simp only [Option.getD_some]
      unfold decodeResponse
      rw [parse_response_frame_enc .get status (TTL.parse ttl) key value
        (TTL.parse_lt ttl httl) hklen hvlen hkutf hvutf]
      rw [strOpt_of_ne_nil hkne, strOpt_of_ne_nil hvne]
      simp [Bind.bind, Except.bind, Response.tryFrom, ResponseFrame.new,
        TTL.intoTtl_parse ttl httl0]
  · unfold encodeResponse
    rw [responseToFrame_set, bindM_ok, bind_ok, writeResponseBytes_new]
    simp only [Option.getD_none]
    unfold decodeResponse
    rw [parse_response_frame_enc .set status 0 [] [] (by norm_num)
      (by norm_num) (by norm_num [MAX_VALUE_LENGTH]) utf8Valid_nil utf8Valid_nil]
    simp [Bind.bind, Except.bind, Response.tryFrom, ResponseFrame.new, strOpt,
      ensure_key_and_value_are_none]
  · unfold encodeResponse
    rw [responseToFrame_delete, bindM_ok, bind_ok, writeResponseBytes_new]
    simp only [Option.getD_none]
    unfold decodeResponse
    rw [parse_response_frame_enc .delete status 0 [] [] (by norm_num)
      (by norm_num) (by norm_num [MAX_VALUE_LENGTH]) utf8Valid_nil utf8Valid_nil]
    simp [Bind.bind, Except.bind, Response.tryFrom, ResponseFrame.new, strOpt,
      ensure_key_and_value_are_none]
  · unfold encodeResponse
    rw [responseToFrame_flush, bindM_ok, bind_ok, writeResponseBytes_new]
    simp only [Option.getD_none]
    unfold decodeResponse
    rw [parse_response_frame_enc .flush status 0 [] [] (by norm_num)
      (by norm_num) (by norm_num [MAX_VALUE_LENGTH]) utf8Valid_nil utf8Valid_nil]
    simp [Bind.bind, Except.bind, Response.tryFrom, ResponseFrame.new, strOpt,
      ensure_key_and_value_are_none]

/-! ## Storage lemmas -/

theorem mapLookup_filter_ne {m : List (Str × DbValue)} {k k' : Str}
    (h : ¬ k' = k) :
    mapLookup (m.filter (fun p => ¬ p.1 = k)) k' = mapLookup m k' := by
  induction m with
  | nil => rfl
  | cons a m ih =>
    by_cases ha : a.1 = k
    · rw [show mapLookup (a :: m) k' = mapLookup m k' by
        unfold mapLookup
        rw [List.find?_cons_of_neg _ (by simp [ha]; exact fun hh => h hh.symm)]]
      rw [← ih]
      congr 1
      simp [List.filter_cons, ha]
    · by_cases ha' : a.1 = k'
      · unfold mapLookup
        rw [List.filter_cons_of_pos (by simp [ha]),
          List.find?_cons_of_pos _ (by simp [ha']),
          List.find?_cons_of_pos _ (by simp [ha'])]
      · unfold mapLookup
        rw [List.filter_cons_of_pos (by simp [ha]),
          List.find?_cons_of_neg _ (by simp [ha']),
          List.find?_cons_of_neg _ (by simp [ha'])]
        exact ih

theorem mapLookup_insert (m : List (Str × DbValue)) (k : Str) (v : DbValue)
    (k' : Str) :
    mapLookup (mapInsert m k v) k' = if k' = k then some v else mapLookup m k' := by
  by_cases h : k' = k
  · subst h
    unfold mapInsert mapLookup
    rw [List.find?_cons_of_pos _ (by simp)]
    simp
  · unfold mapInsert
    rw [if_neg h, show mapLookup ((k, v) :: List.filter (fun p => ¬ p.1 = k) m) k' =
        mapLookup (List.filter (fun p => ¬ p.1 = k) m) k' by
      unfold mapLookup
      rw [List.find?_cons_of_neg _ (by simp; exact fun hh => h hh.symm)]]
    exact mapLookup_filter_ne h

theorem mapLookup_remove (m : List (Str × DbValue)) (k k' : Str) :
    mapLookup (mapRemove m k) k' = if k' = k then none else mapLookup m k' := by
  by_cases h : k' = k
  · subst h
    unfold mapRemove mapLookup
    have hnone : List.find? (fun p => decide (p.1 = k'))
        (List.filter (fun p => decide ¬ p.1 = k') m) = none := by
      apply List.find?_eq_none.mpr
      intro p hp
      simp only [List.mem_filter] at hp
      simpa using hp.2
    rw [hnone]
    simp
  · unfold mapRemove
    rw [if_neg h]
    exact mapLookup_filter_ne h

theorem mem_setInsert (s : List Str) (k k' : Str) :
    k' ∈ setInsert s k ↔ k' = k ∨ k' ∈ s := by
  unfold setInsert
  split
  · constructor
    · exact fun h => Or.inr h
    · rintro (rfl | h)
      · assumption
      · assumption
  · simp [List.mem_cons]

theorem mem_setRemove (s : List Str) (k k' : Str) :
    k' ∈ setRemove s k ↔ k' ∈ s ∧ ¬ k' = k := by
  unfold setRemove
  simp [List.mem_filter]

/-- The (weakened) coherence invariant between `db` and `keys_with_ttl` that
the code actually maintains: every tracked key is still present in the map,
and every entry carrying a TTL is tracked. (The converse — a tracked key's
entry always carries a TTL — fails; see the counterexample.) -/
def TtlIndexCoherent (s : MainDB) : Prop :=
  (∀ k, k ∈ s.keys_with_ttl → (mapLookup s.db k).isSome) ∧
  (∀ k v t,
    mapLookup s.db k = some { value := v, ttl_since_unix_epoch_in_millis := some t } →
      k ∈ s.keys_with_ttl)

theorem ttlIndexCoherent_step (now : Nat) (s : MainDB) (req : DbRequest)
    (h : TtlIndexCoherent s) :
    TtlIndexCoherent (MainDB.handleRequest now s req).2 := by
  obtain ⟨h1, h2⟩ := h
  cases req with
  | insert key value ttl =>
    cases ttl with
    | none =>
      refine ⟨fun k hk => ?_, fun k v t hl => ?_⟩
      · simp only [MainDB.handleRequest, MainDB.insert] at hk ⊢
        rw [mapLookup_insert]
        split
        · simp
        · exact h1 k hk
      · simp only [MainDB.handleRequest, MainDB.insert] at hl ⊢
        rw [mapLookup_insert] at hl
        by_cases hk : k = key
        · rw [if_pos hk] at hl
          simp at hl
        · rw [if_neg hk] at hl
          exact h2 k v t hl
    | some ttl =>
      by_cases hexp : ttl ≤ now
      · simpa [MainDB.handleRequest, MainDB.insert, hexp] using ⟨h1, h2⟩
      · refine ⟨fun k hk => ?_, fun k v t hl => ?_⟩
        · simp only [MainDB.handleRequest, MainDB.insert, if_neg hexp] at hk ⊢
          rw [mem_setInsert] at hk
          rw [mapLookup_insert]
          rcases hk with rfl | hk
          · simp
          · split
            · simp
            · exact h1 k hk
        · simp only [MainDB.handleRequest, MainDB.insert, if_neg hexp] at hl ⊢
          rw [mem_setInsert]
          rw [mapLookup_insert] at hl
          by_cases hk : k = key
          · exact Or.inl hk
          · rw [if_neg hk] at hl
            exact Or.inr (h2 k v t hl)
  | get key =>
    simp only [MainDB.handleRequest, MainDB.get]
    split
    · refine ⟨fun k hk => ?_, fun k v t hl => ?_⟩
      · simp only at hk ⊢
        rw [mem_setRemove] at hk
        rw [mapLookup_remove, if_neg hk.2]
        exact h1 k hk.1
      · simp only at hl ⊢
        rw [mapLookup_remove] at hl
        rw [mem_setRemove]
        by_cases hk : k = key
        · rw [if_pos hk] at hl
          simp at hl
        · rw [if_neg hk] at hl
          exact ⟨h2 k v t hl, hk⟩
    · exact ⟨h1, h2⟩
  | remove key =>
    refine ⟨fun k hk => ?_, fun k v t hl => ?_⟩
    · simp only [MainDB.handleRequest, MainDB.remove] at hk ⊢
      rw [mem_setRemove] at hk
      rw [mapLookup_remove, if_neg hk.2]
      exact h1 k hk.1
    · simp only [MainDB.handleRequest, MainDB.remove] at hl ⊢
      rw [mapLookup_remove] at hl
      rw [mem_setRemove]
      by_cases hk : k = key
      · rw [if_pos hk] at hl
        simp at hl
      · rw [if_neg hk] at hl
        exact ⟨h2 k v t hl, hk⟩
  | containsKey key => exact ⟨h1, h2⟩
  | clear =>
    refine ⟨fun k hk => ?_, fun k v t hl => ?_⟩
    · simp [MainDB.handleRequest, MainDB.clear] at hk
    · simp only [MainDB.handleRequest, MainDB.clear] at hl
      simp [mapLookup] at hl

theorem ttlIndexCoherent_runSteps (steps : List (Nat × DbRequest)) :
    TtlIndexCoherent (runSteps steps) := by
  have hgen : ∀ (l : List (Nat × DbRequest)) (s : MainDB), TtlIndexCoherent s →
      TtlIndexCoherent (l.foldl (fun s step => (MainDB.handleRequest step.1 s step.2).2) s) := by
    intro l
    induction l with
    | nil => exact fun s hs => hs
    | cons a l ih =>
      intro s hs
      exact ih _ (ttlIndexCoherent_step a.1 s a.2 hs)
  refine hgen steps MainDB.new ⟨?_, ?_⟩
  · intro k hk
    simp [MainDB.new] at hk
  · intro k v t hl
    simp [MainDB.new, mapLookup] at hl

/-! ## Frame-level prefix lemmas -/

/-- An optional wire string that the codec represents faithfully:
absent, or non-empty and within bounds and valid UTF-8. -/
def WfOptStr (o : Option Str) (maxLen : Nat) : Prop :=
  match o with
  | none => True
  | some s => WfStr s maxLen

instance (o : Option Str) (maxLen : Nat) : Decidable (WfOptStr o maxLen) :=
  match o with
  | none => inferInstanceAs (Decidable True)
  | some s => inferInstanceAs (Decidable (WfStr s maxLen))

theorem WfOptStr.length_getD {o : Option Str} {n : Nat} (h : WfOptStr o n) :
    (o.getD []).length ≤ n := by
  cases o with
  | none => simp
  | some s => exact h.2.1

theorem WfOptStr.utf8_getD {o : Option Str} {n : Nat} (h : WfOptStr o n) :
    utf8Valid (o.getD []) = true := by
  cases o with
  | none => exact utf8Valid_nil
  | some s => exact h.2.2

theorem WfOptStr.strOpt_getD {o : Option Str} {n : Nat} (h : WfOptStr o n) :
    strOpt (o.getD []) = o := by
  cases o with
  | none => rfl
  | some s => exact strOpt_of_ne_nil h.1

theorem parse_request_frame_of_incomplete {input : Str}
    (h : parse_request_primitives input = .error .incomplete) :
    parse_request_frame input = .error (.frame .incomplete) := by
  unfold parse_request_frame
  rw [h]
  rfl

/-! ## Claims -/

/-- Claim C1, counterexample: the round-trip fails as universally stated.
The request `Set {key: "k", value: "", ttl: None}` is encodable (encoding
succeeds), but decoding its own encoding yields `ValueMissing`, not the
request back: the wire maps a zero-length value to "absent". -/
theorem set_empty_value_roundtrip_cex :
    Except.bind (encodeRequest (.set [107] [] none)) decodeRequest ≠
      .ok (.set [107] [] none) := by decide

/-- Claim C1 (amended): for every request whose key is non-empty, within
255 bytes and valid UTF-8, whose value (for Set) is likewise non-empty and
within 1 MiB, and whose TTL is neither `Some 0` (the wire sentinel for "no
TTL") nor ≥ 2^128 — and for every response satisfying the analogous
conditions (an absent GET body additionally needs a non-Ok status) —
serializing exactly as `Connection::write_request`/`write_response` and
decoding via `parse_request_frame`/`parse_response_frame` plus the frame →
`Request`/`Response` conversion yields the original value back. -/
theorem encodable_roundtrip_amended (r : Request) (resp : Response)
    (hr : r.Wf) (hresp : resp.Wf) :
    Except.bind (encodeRequest r) decodeRequest = .ok r ∧
    Except.bind (encodeResponse resp) decodeResponse = .ok resp :=
  ⟨request_roundtrip r hr, response_roundtrip resp hresp⟩

/-- Witness for the amended C1 round-trip at concrete inputs. -/
theorem encodable_roundtrip_amended_witness :
    Except.bind (encodeRequest (.set [65] [66] (some 5))) decodeRequest =
      .ok (.set [65] [66] (some 5)) ∧
    Except.bind (encodeResponse { status := .keyNotFound, body := .get none })
        decodeResponse =
      .ok { status := .keyNotFound, body := .get none } :=
  encodable_roundtrip_amended (.set [65] [66] (some 5))
    { status := .keyNotFound, body := .get none } (by decide) (by decide)

/-- Claim C2, counterexample: the `keys_with_ttl ⇔ Some TTL` iff does not
hold after every actor step. Inserting a key with a TTL and then
overwriting it with a TTL-free insert leaves the key in `keys_with_ttl`
while its map entry has no TTL (`MainDB::insert` never removes a key from
the TTL set when overwriting). -/
theorem ttl_index_iff_cex :
    ¬ (∀ (steps : List (Nat × DbRequest)) (k : Str),
        k ∈ (runSteps steps).keys_with_ttl ↔
          ∃ v t, mapLookup (runSteps steps).db k =
            some { value := v, ttl_since_unix_epoch_in_millis := some t }) := by
  intro hclaim
  have h := (hclaim [(0, .insert [107] [118] (some 5)), (0, .insert [107] [119] none)]
    [107]).mp (by decide)
  obtain ⟨v, t, heq⟩ := h
  rw [show mapLookup (runSteps [(0, .insert [107] [118] (some 5)),
      (0, .insert [107] [119] none)]).db [107] =
      some { value := [119], ttl_since_unix_epoch_in_millis := none } from by decide] at heq
  simp at heq

/-- Claim C2 (amended): after every sequence of storage-actor steps from
the empty state, every key in `keys_with_ttl` is still present in the main
map, and every map entry with `Some TTL` has its key in `keys_with_ttl`.
The remaining direction of the original iff (a tracked key's entry has
`Some TTL`) fails exactly when a TTL-free Insert overwrites a key that had
a TTL. -/
theorem ttl_index_coherence_amended (steps : List (Nat × DbRequest)) :
    TtlIndexCoherent (runSteps steps) :=
  ttlIndexCoherent_runSteps steps

/-- Witness for the amended C2 invariant at a concrete step sequence. -/
theorem ttl_index_coherence_amended_witness :
    [107] ∈ (runSteps [(0, .insert [107] [118] (some 5))]).keys_with_ttl :=
  (ttl_index_coherence_amended [(0, .insert [107] [118] (some 5))]).2
    [107] [118] 5 (by decide)

/-- Claim C3: `Insert(k, v, Some t)` with `t ≤ now` stores nothing (state
unchanged, no error); with `t > now` (or no TTL) it stores the entry (and
tracks the key for `Some t`); `Get(k)` on an entry whose TTL `t₀` satisfies
`t₀ < now` removes `k` from both containers and reports a miss; otherwise
`Get` returns the stored (value, TTL) pair and leaves the state unchanged. -/
theorem insert_get_ttl_semantics (now : Nat) (s : MainDB) (k v : Str) (t : Nat) :
    (t ≤ now → MainDB.insert now s k v (some t) = s) ∧
    (now < t →
      mapLookup (MainDB.insert now s k v (some t)).db k =
        some { value := v, ttl_since_unix_epoch_in_millis := some t } ∧
      k ∈ (MainDB.insert now s k v (some t)).keys_with_ttl) ∧
    (mapLookup (MainDB.insert now s k v none).db k =
      some { value := v, ttl_since_unix_epoch_in_millis := none }) ∧
    (∀ v₀ t₀,
      mapLookup s.db k = some { value := v₀, ttl_since_unix_epoch_in_millis := some t₀ } →
      t₀ < now →
      (MainDB.get now s k).1 = none ∧
      mapLookup (MainDB.get now s k).2.db k = none ∧
      k ∉ (MainDB.get now s k).2.keys_with_ttl) ∧
    (∀ val, mapLookup s.db k = some val →
      (∀ t₀, val.ttl_since_unix_epoch_in_millis = some t₀ → ¬ t₀ < now) →
      MainDB.get now s k = (some val, s)) := by
  refine ⟨?_, ?_, ?_, ?_, ?_⟩
  · intro h
    simp [MainDB.insert, h]
  · intro h
    constructor
    · simp only [MainDB.insert, if_neg (by omega : ¬ t ≤ now)]
      rw [mapLookup_insert, if_pos rfl]
    · simp only [MainDB.insert, if_neg (by omega : ¬ t ≤ now)]
      rw [mem_setInsert]
      exact Or.inl rfl
  · simp only [MainDB.insert]
    rw [mapLookup_insert, if_pos rfl]
  · intro v₀ t₀ hl ht
    have hexp : (((mapLookup s.db k).bind
        (·.ttl_since_unix_epoch_in_millis)).map
          (fun ttl => decide (ttl < now))).getD false = true := by
      rw [hl]
      simpa using ht
    refine ⟨?_, ?_, ?_⟩
    · simp only [MainDB.get, hexp, if_pos]
    · simp only [MainDB.get, hexp, if_pos]
      rw [mapLookup_remove, if_pos rfl]
    · simp only [MainDB.get, hexp, if_pos]
      rw [mem_setRemove]
      simp
  · intro val hl hne
    have hexp : (((mapLookup s.db k).bind
        (·.ttl_since_unix_epoch_in_millis)).map
          (fun ttl => decide (ttl < now))).getD false = false := by
      rw [hl]
      cases hv : val.ttl_since_unix_epoch_in_millis with
      | none => simp [hv]
      | some t₀ => simpa [hv] using hne t₀ hv
    simp only [MainDB.get, hexp]
    rw [if_neg (by simp), hl]

/-- Witness for C3 at concrete inputs: a past-TTL insert is a no-op. -/
theorem insert_get_ttl_semantics_witness :
    MainDB.insert 10 MainDB.new [107] [118] (some 5) = MainDB.new :=
  (insert_get_ttl_semantics 10 MainDB.new [107] [118] 5).1 (by decide)

/-- Claim C4: the server's SET is insert-if-absent, not upsert. When
`ContainsKey` reports the key present the handler responds `KeyExists` and
leaves the actor state untouched, so a subsequent GET (here: of an
entry without TTL, which never expires) still returns the original value;
when the key is absent the handler performs the Insert and responds `Ok`. -/
theorem set_insert_if_absent (now now' : Nat) (s : MainDB) (k v : Str)
    (ttl : Option Nat) :
    (s.containsKey k = true →
      Handler.handleRequest now s (.set k v ttl) =
        ({ status := .keyExists, body := .set }, s)) ∧
    (s.containsKey k = false →
      Handler.handleRequest now s (.set k v ttl) =
        ({ status := .ok, body := .set }, MainDB.insert now s k v ttl)) ∧
    (∀ v₀,
      mapLookup s.db k = some { value := v₀, ttl_since_unix_epoch_in_millis := none } →
      s.containsKey k = true ∧
      (Handler.handleRequest now'
          (Handler.handleRequest now s (.set k v ttl)).2 (.get k)).1 =
        { status := .ok,
          body := .get (some { key := k, value := v₀,
                               ttl_since_unix_epoch_in_millis := none }) }) := by
  refine ⟨?_, ?_, ?_⟩
  · intro h
    simp [Handler.handleRequest, h]
  · intro h
    simp [Handler.handleRequest, h]
  · intro v₀ hl
    have hc : s.containsKey k = true := by
      unfold MainDB.containsKey
      rw [hl]
      rfl
    refine ⟨hc, ?_⟩
    simp only [Handler.handleRequest, hc, if_pos]
    have hexp : (((mapLookup s.db k).bind
        (·.ttl_since_unix_epoch_in_millis)).map
          (fun ttl => decide (ttl < now'))).getD false = false := by
      rw [hl]
      rfl
    simp only [MainDB.get, hexp]
    rw [if_neg (by simp), hl]

/-- Witness for C4 at concrete inputs. -/
theorem set_insert_if_absent_witness :
    Handler.handleRequest 0 MainDB.new (.set [107] [118] none) =
      ({ status := .ok, body := .set }, MainDB.insert 0 MainDB.new [107] [118] none) :=
  (set_insert_if_absent 0 0 MainDB.new [107] [118] none).2.1 (by decide)

/-- Claim C5: the actor's `ContainsKey` is a bare map-membership test with
no expiry check, and consequently a SET for a key that is present but whose
TTL has already elapsed (`t₀ < now`) responds `KeyExists` and stores
nothing. -/
theorem containsKey_ignores_ttl (now : Nat) (s : MainDB) (k : Str) :
    (s.containsKey k = (mapLookup s.db k).isSome) ∧
    (∀ v₀ t₀,
      mapLookup s.db k = some { value := v₀, ttl_since_unix_epoch_in_millis := some t₀ } →
      t₀ < now →
      ∀ vNew ttlNew,
        Handler.handleRequest now s (.set k vNew ttlNew) =
          ({ status := .keyExists, body := .set }, s)) := by
  refine ⟨rfl, ?_⟩
  intro v₀ t₀ hl ht vNew ttlNew
  have hc : s.containsKey k = true := by
    unfold MainDB.containsKey
    rw [hl]
    rfl
  simp [Handler.handleRequest, hc]

/-- Witness for C5 at concrete inputs: the key stored at time 0 with TTL 5
is expired at time 10, yet SET still answers `KeyExists`. -/
theorem containsKey_ignores_ttl_witness :
    Handler.handleRequest 10 (MainDB.insert 0 MainDB.new [107] [118] (some 5))
        (.set [107] [119] none) =
      ({ status := .keyExists, body := .set },
        MainDB.insert 0 MainDB.new [107] [118] (some 5)) :=
  (containsKey_ignores_ttl 10 (MainDB.insert 0 MainDB.new [107] [118] (some 5))
    [107]).2 [118] 5 (by decide) (by decide) [119] none

/-- Claim C6: converting a GET response frame: with status `Ok` a missing
key and/or value is a parse error (`ValueMissing` when only the value is
missing, `KeyMissing` when only the key, `KeyAndValueMissing` when both);
with any non-Ok status the same missing parts are accepted and the body is
`None`. -/
theorem get_response_status_asymmetry (frame : ResponseFrame)
    (hop : frame.header.op_code = .get) :
    (frame.header.status = .ok →
      (frame.key = none → frame.value = none →
        Response.tryFrom frame = .error (.parse .keyAndValueMissing)) ∧
      (∀ k, frame.key = some k → frame.value = none →
        Response.tryFrom frame = .error (.parse .valueMissing)) ∧
      (∀ v, frame.key = none → frame.value = some v →
        Response.tryFrom frame = .error (.parse .keyMissing))) ∧
    (¬ frame.header.status = .ok → (frame.key = none ∨ frame.value = none) →
      Response.tryFrom frame =
        .ok { status := frame.header.status, body := .get none }) := by
  rcases frame with ⟨⟨op, status, klen, ttlF, tot⟩, key, value⟩
  simp only at hop
  subst hop
  constructor
  · intro hst
    replace hst : status = .ok := hst
    refine ⟨?_, ?_, ?_⟩
    · rintro rfl rfl
      simp [Response.tryFrom, hst, Bind.bind, Except.bind]
    · rintro k rfl rfl
      simp [Response.tryFrom, hst, Bind.bind, Except.bind]
    · rintro v rfl rfl
      simp [Response.tryFrom, hst, Bind.bind, Except.bind]
  · intro hst hor
    replace hst : ¬ status = .ok := hst
    rcases key with _ | k <;> rcases value with _ | v
    · simp [Response.tryFrom, hst, Bind.bind, Except.bind]
    · simp [Response.tryFrom, hst, Bind.bind, Except.bind]
    · simp [Response.tryFrom, hst, Bind.bind, Except.bind]
    · rcases hor with h | h <;> simp at h

/-- Witness for C6 at a concrete frame: status `KeyNotFound`, no key, no
value decodes to an empty GET body. -/
theorem get_response_status_asymmetry_witness :
    Response.tryFrom
        { header := { op_code := .get, status := .keyNotFound, key_length := 0,
                      ttl_since_unix_epoch_in_millis := 0, total_frame_length := 23 },
          key := none, value := none } =
      .ok { status := .keyNotFound, body := .get none } :=
  (get_response_status_asymmetry
    { header := { op_code := .get, status := .keyNotFound, key_length := 0,
                  ttl_since_unix_epoch_in_millis := 0, total_frame_length := 23 },
      key := none, value := none } rfl).2 (by decide) (Or.inl rfl)

/-- Claim C7: for every valid encoded request frame of length `n` (a frame
whose key/value are absent or non-empty, in bounds, valid UTF-8, TTL in
`u128` range), decoding any strict prefix returns the soft `Incomplete`
error — the only result for insufficient input — and decoding the full `n`
bytes returns the frame itself. -/
theorem frame_prefix_incomplete (op : OpCode) (ttl : Nat) (key value : Option Str)
    (hk : WfOptStr key 255) (hv : WfOptStr value MAX_VALUE_LENGTH)
    (httl : ttl < 2 ^ 128) :
    (∀ m, m < (writeRequestBytes (RequestFrame.new op ttl key value)).length →
      parse_request_frame
          ((writeRequestBytes (RequestFrame.new op ttl key value)).take m) =
        .error (.frame .incomplete)) ∧
    parse_request_frame (writeRequestBytes (RequestFrame.new op ttl key value)) =
      .ok (RequestFrame.new op ttl key value) := by
  constructor
  · intro m hm
    rw [writeRequestBytes_new] at hm ⊢
    rw [encodeRawRequest_length] at hm
    exact parse_request_frame_of_incomplete
      (parse_request_primitives_truncated op ttl _ _ (WfOptStr.length_getD hk)
        (WfOptStr.length_getD hv) m hm)
  · rw [writeRequestBytes_new]
    rw [parse_request_frame_enc op ttl _ _ httl (WfOptStr.length_getD hk)
      (WfOptStr.length_getD hv) (WfOptStr.utf8_getD hk) (WfOptStr.utf8_getD hv)]
    rw [WfOptStr.strOpt_getD hk, WfOptStr.strOpt_getD hv]

/-- Witness for C7 at a concrete frame and prefix length. -/
theorem frame_prefix_incomplete_witness :
    parse_request_frame
        ((writeRequestBytes (RequestFrame.new .set 0 (some [65]) (some [66]))).take 5) =
      .error (.frame .incomplete) ∧
    parse_request_frame (writeRequestBytes (RequestFrame.new .set 0 (some [65]) (some [66]))) =
      .ok (RequestFrame.new .set 0 (some [65]) (some [66])) :=
  have h := frame_prefix_incomplete .set 0 (some [65]) (some [66])
    (by decide) (by decide) (by norm_num)
  ⟨h.1 5 (by decide), h.2⟩

/-- Claim C8, counterexample: the decoder is not lossy. This byte sequence
is a structurally valid GET frame (header total length 24 = 23 + key
length 1) whose single key byte `0xFF` is invalid UTF-8; `parse_request_frame`
rejects it with the `Parse::String` error instead of substituting a
replacement character and accepting it. -/
theorem lossy_utf8_cex :
    parse_request_frame ([2, 0, 1] ++ List.replicate 16 0 ++ [0, 0, 0, 24] ++ [255]) =
      .error (.parse .stringUtf8) := by decide

theorem parse_request_frame_invalid_key_utf8 (op : OpCode) (ttl : Nat)
    (kb vb : Str) (httl : ttl < 2 ^ 128) (hk : kb.length ≤ 255)
    (hv : vb.length ≤ MAX_VALUE_LENGTH) (hku : utf8Valid kb = false) :
    parse_request_frame (encodeRawRequest op ttl kb vb) =
      .error (.parse .stringUtf8) := by
  unfold parse_request_frame
  rw [parse_request_primitives_enc op ttl kb vb httl hk hv]
  cases kb with
  | nil =>
    rw [utf8Valid_nil] at hku
    simp at hku
  | cons a kb' =>
    simp [Bind.bind, Except.bind, fromUtf8, hku]

theorem parse_request_frame_invalid_value_utf8 (op : OpCode) (ttl : Nat)
    (kb vb : Str) (httl : ttl < 2 ^ 128) (hk : kb.length ≤ 255)
    (hv : vb.length ≤ MAX_VALUE_LENGTH) (hku : utf8Valid kb = true)
    (hvu : utf8Valid vb = false) :
    parse_request_frame (encodeRawRequest op ttl kb vb) =
      .error (.parse .stringUtf8) := by
  unfold parse_request_frame
  rw [parse_request_primitives_enc op ttl kb vb httl hk hv]
  cases vb with
  | nil =>
    rw [utf8Valid_nil] at hvu
    simp at hvu
  | cons b vb' =>
    cases kb with
    | nil =>
      simp [Bind.bind, Except.bind, fromUtf8, hvu]
    | cons a kb' =>
      simp only [Bind.bind, Except.bind, List.length_cons, fromUtf8, hku,
        if_true, Key.parse]
      rw [if_neg (by simpa using hk)]
      simp [Bind.bind, Except.bind, hvu]

theorem parse_response_frame_invalid_key_utf8 (op : OpCode)
    (status : StatusCode) (ttl : Nat) (kb vb : Str)
    (httl : ttl < 2 ^ 128) (hk : kb.length ≤ 255)
    (hv : vb.length ≤ MAX_VALUE_LENGTH) (hku : utf8Valid kb = false) :
    parse_response_frame (encodeRawResponse op status ttl kb vb) =
      .error (.parse .stringUtf8) := by
  unfold parse_response_frame
  rw [parse_response_primitives_enc op status ttl kb vb httl hk hv]
  cases kb with
  | nil =>
    rw [utf8Valid_nil] at hku
    simp at hku
  | cons a kb' =>
    simp [Bind.bind, Except.bind, fromUtf8, hku]

theorem parse_response_frame_invalid_value_utf8 (op : OpCode)
    (status : StatusCode) (ttl : Nat) (kb vb : Str)
    (httl : ttl < 2 ^ 128) (hk : kb.length ≤ 255)
    (hv : vb.length ≤ MAX_VALUE_LENGTH) (hku : utf8Valid kb = true)
    (hvu : utf8Valid vb = false) :
    parse_response_frame (encodeRawResponse op status ttl kb vb) =
      .error (.parse .stringUtf8) := by
  unfold parse_response_frame
  rw [parse_response_primitives_enc op status ttl kb vb httl hk hv]
  cases vb with
  | nil =>
    rw [utf8Valid_nil] at hvu
    simp at hvu
  | cons b vb' =>
    cases kb with
    | nil =>
      simp [Bind.bind, Except.bind, fromUtf8, hvu]
    | cons a kb' =>
      simp only [Bind.bind, Except.bind, List.length_cons, fromUtf8, hku,
        if_true, Key.parse]
      rw [if_neg (by simpa using hk)]
      simp [Bind.bind, Except.bind, hvu]

/-- Claim C8 (amended): the connection decode path (`parsing.rs`) validates
UTF-8 strictly via `String::from_utf8`: every structurally valid request or
response frame whose (non-empty) key bytes or value bytes are not valid
UTF-8 is rejected with the `Parse::String` error, never accepted with
replacement characters. (The lossy `from_utf8_lossy` helper in
`frame/mod.rs` is not on this decode path.) -/
theorem strict_utf8_rejection (op : OpCode) (status : StatusCode) (ttl : Nat)
    (kb vb : Str) (httl : ttl < 2 ^ 128) (hk : kb.length ≤ 255)
    (hv : vb.length ≤ MAX_VALUE_LENGTH)
    (hbad : utf8Valid kb = false ∨ utf8Valid vb = false) :
    parse_request_frame (encodeRawRequest op ttl kb vb) =
      .error (.parse .stringUtf8) ∧
    parse_response_frame (encodeRawResponse op status ttl kb vb) =
      .error (.parse .stringUtf8) := by
  by_cases hku : utf8Valid kb = true
  · have hvu : utf8Valid vb = false := by
      rcases hbad with h | h
      · rw [hku] at h
        simp at h
      · exact h
    exact ⟨parse_request_frame_invalid_value_utf8 op ttl kb vb httl hk hv hku hvu,
      parse_response_frame_invalid_value_utf8 op status ttl kb vb httl hk hv hku hvu⟩
  · have hku' : utf8Valid kb = false := by
      cases h : utf8Valid kb
      · rfl
      · exact absurd h hku
    exact ⟨parse_request_frame_invalid_key_utf8 op ttl kb vb httl hk hv hku',
      parse_response_frame_invalid_key_utf8 op status ttl kb vb httl hk hv hku'⟩

/-- Witness for the amended C8 at concrete frames: a valid one-byte key
`"A"` with the invalid-UTF-8 value byte `0xFF` is rejected on both the
request and the response decode path. -/
theorem strict_utf8_rejection_witness :
    parse_request_frame (encodeRawRequest .get 0 [65] [255]) =
      .error (.parse .stringUtf8) ∧
    parse_response_frame (encodeRawResponse .get .ok 0 [65] [255]) =
      .error (.parse .stringUtf8) :=
  strict_utf8_rejection .get .ok 0 [65] [255] (by norm_num) (by decide)
    (by decide) (Or.inr (by decide))

/-- Claim C9, counterexample: `Key::parse` does not require non-emptiness:
it accepts the empty string, whose length lies outside the claimed
`[1, 255]` range. -/
theorem key_parse_nonempty_cex :
    Key.parse [] = .ok [] ∧ ¬ (1 ≤ ([] : Str).length) := by decide

/-- Claim C9 (amended): `Key::parse` accepts exactly the strings of byte
length at most 255 — including the empty string — and rejects every longer
input with `KeyTooLong`. -/
theorem key_parse_length_bound (k : Str) :
    (k.length ≤ 255 → Key.parse k = .ok k) ∧
    (255 < k.length → Key.parse k = .error (.frame .keyTooLong)) := by
  constructor
  · intro h
    unfold Key.parse
    rw [if_neg (by omega)]
  · intro h
    unfold Key.parse
    rw [if_pos (by omega)]

/-- Witness for the amended C9 at concrete inputs. -/
theorem key_parse_length_bound_witness : Key.parse [107] = .ok [107] :=
  (key_parse_length_bound [107]).1 (by decide)

/-- Claim C10: the decoder maps zero-length key/value fields to `None`, so
although `Value::parse` accepts length 0 and `Key::parse` accepts the empty
string, empty keys and values cannot round-trip the wire: a Set with empty
value decodes from its own encoding as `ValueMissing`, and a Get or Delete
with empty key as `KeyMissing`. -/
theorem empty_wire_fields_cannot_roundtrip :
    (Value.parse [] = .ok []) ∧ (Key.parse [] = .ok []) ∧
    (Except.bind (encodeRequest (.get [])) decodeRequest =
      .error (.parse .keyMissing)) ∧
    (Except.bind (encodeRequest (.delete [])) decodeRequest =
      .error (.parse .keyMissing)) ∧
    (∀ key ttl, WfStr key 255 → ttl.getD 0 < 2 ^ 128 →
      Except.bind (encodeRequest (.set key [] ttl)) decodeRequest =
        .error (.parse .valueMissing)) := by
  refine ⟨by decide, by decide, by decide, by decide, ?_⟩
  rintro key ttl ⟨hne, hlen, hutf⟩ httl
  rw [encodeRequest_set key [] ttl hlen (by norm_num [MAX_VALUE_LENGTH]), bind_ok]
  unfold decodeRequest
  rw [parse_request_frame_enc .set (TTL.parse ttl) key []
    (TTL.parse_lt ttl httl) hlen (by norm_num [MAX_VALUE_LENGTH]) hutf utf8Valid_nil]
  rw [strOpt_of_ne_nil hne]
  simp [Bind.bind, Except.bind, Request.tryFrom, RequestFrame.new, strOpt]

/-- Witness for C10 at a concrete request. -/
theorem empty_wire_fields_cannot_roundtrip_witness :
    Except.bind (encodeRequest (.set [108] [] none)) decodeRequest =
      .error (.parse .valueMissing) :=
  empty_wire_fields_cannot_roundtrip.2.2.2.2 [108] none (by decide) (by norm_num)

end Cached
